import Mathlib

/-!
Shallow embedding of the `controller` package of nodekit-seq
(src/controller/controller.go): the block-acceptance indexing pipeline
(`Controller.Accepted`), the rejection notification (`Controller.Rejected`),
the store partitioning and the builder/gossiper strategy selection inside
`Controller.Initialize`.

Storage failures are injected through an explicit environment (`Env` for
acceptance, `StoresEnv` for initialization): the Go code calls fallible
collaborators (`storage.StoreTransaction`, `batch.Write`, `pebble.New`,
`utils.InitSubDirectory`) whose success or failure is outside this fragment,
so the embedding quantifies over all failure patterns.
-/

namespace NodekitSeq

/-- The action kinds recognized by the metrics switch in `Controller.Accepted`:
`CreateAsset`, `MintAsset`, `BurnAsset`, `ModifyAsset`, `Transfer`,
`SequencerMsg`, `ImportAsset`, `ExportAsset`. -/
inductive KnownKind where
  | createAsset
  | mintAsset
  | burnAsset
  | modifyAsset
  | transfer
  | sequencerMsg
  | importAsset
  | exportAsset
deriving DecidableEq

/-- A transaction's action: either one of the known kinds, or any other
action type (the Go type switch has no case for it; `tag` distinguishes
the unboundedly many unrecognized action types). -/
inductive ActionKind where
  | known (k : KnownKind)
  | unknown (tag : Nat)
deriving DecidableEq

/-- Execution result of one transaction (`result.Success`, `result.Units`). -/
structure TxResult where
  success : Bool
  units : Nat
deriving DecidableEq

/-- A transaction: its identifier (`tx.ID()`) and its action (`tx.Action`). -/
structure Tx where
  id : Nat
  action : ActionKind
deriving DecidableEq

/-- A finalized block: `blk.Txs`, `blk.Results()` and `blk.GetTimestamp()`. -/
structure Block where
  txs : List Tx
  results : List TxResult
  timestamp : Int
deriving DecidableEq

/-- The record written by `storage.StoreTransaction`: block timestamp,
success flag and unit cost, keyed (in the store) by the transaction id. -/
structure TxRecord where
  timestamp : Int
  success : Bool
  units : Nat
deriving DecidableEq

/-- The eight per-action-kind counters of the `metrics` struct. -/
structure Metrics where
  createAsset : Nat
  mintAsset : Nat
  burnAsset : Nat
  modifyAsset : Nat
  transfer : Nat
  sequencerMsg : Nat
  importAsset : Nat
  exportAsset : Nat
deriving DecidableEq

/-- Read the counter of a known action kind. -/
def getCounter (m : Metrics) : KnownKind → Nat
  | KnownKind.createAsset => m.createAsset
  | KnownKind.mintAsset => m.mintAsset
  | KnownKind.burnAsset => m.burnAsset
  | KnownKind.modifyAsset => m.modifyAsset
  | KnownKind.transfer => m.transfer
  | KnownKind.sequencerMsg => m.sequencerMsg
  | KnownKind.importAsset => m.importAsset
  | KnownKind.exportAsset => m.exportAsset

/-- The `switch action := tx.Action.(type)` in `Controller.Accepted`:
increment the counter matching the action's concrete type; an action type
with no case falls through and changes nothing. -/
def incMetrics (m : Metrics) : ActionKind → Metrics
  | ActionKind.known KnownKind.createAsset => { m with createAsset := m.createAsset + 1 }
  | ActionKind.known KnownKind.mintAsset => { m with mintAsset := m.mintAsset + 1 }
  | ActionKind.known KnownKind.burnAsset => { m with burnAsset := m.burnAsset + 1 }
  | ActionKind.known KnownKind.modifyAsset => { m with modifyAsset := m.modifyAsset + 1 }
  | ActionKind.known KnownKind.transfer => { m with transfer := m.transfer + 1 }
  | ActionKind.known KnownKind.sequencerMsg => { m with sequencerMsg := m.sequencerMsg + 1 }
  | ActionKind.known KnownKind.importAsset => { m with importAsset := m.importAsset + 1 }
  | ActionKind.known KnownKind.exportAsset => { m with exportAsset := m.exportAsset + 1 }
  | ActionKind.unknown _ => m

/-- Fault-injection environment for one `Accepted` call: whether the
`storage.StoreTransaction` call for the i-th transaction fails, and whether
the final `batch.Write()` fails. -/
structure Env where
  writeFails : Nat → Bool
  commitFails : Bool

/-- The controller state touched by `Accepted`: the metadata store contents
(an append-only association list keyed by transaction id) and the metrics. -/
structure AcceptState where
  metaDB : List (Nat × TxRecord)
  metrics : Metrics
deriving DecidableEq

/-- The ways `Accepted` can fail to run to completion: the `results[i]`
index going out of range (a Go panic), a `storage.StoreTransaction` error,
or a `batch.Write()` error. -/
inductive AcceptErr where
  | indexPanic
  | storeWrite
  | commitWrite
deriving DecidableEq

/-- The batch entry written for one transaction by `storage.StoreTransaction`. -/
def mkRec (ts : Int) (tx : Tx) (r : TxResult) : Nat × TxRecord :=
  (tx.id, TxRecord.mk ts r.success r.units)

/-- The `for i, tx := range blk.Txs` loop of `Controller.Accepted`:
read `results[i]` (out of range is a panic), call
`storage.StoreTransaction` into the batch (abort on error), and if the
result is successful increment the matching counter. Returns the batch on
success, and the metrics as mutated so far in every case. -/
def acceptedLoop (env : Env) (ts : Int) (results : List TxResult) :
    List Tx → Nat → Metrics → List (Nat × TxRecord) →
    Except AcceptErr (List (Nat × TxRecord)) × Metrics
  | [], _, m, batch => (Except.ok batch, m)
  | tx :: rest, i, m, batch =>
    match results[i]? with
    | none => (Except.error AcceptErr.indexPanic, m)
    | some result =>
      if env.writeFails i then
        (Except.error AcceptErr.storeWrite, m)
      else
        acceptedLoop env ts results rest (i + 1)
          (if result.success then incMetrics m tx.action else m)
          (batch ++ [mkRec ts tx result])

/-- `Controller.Accepted`: open a batch against the metadata store, run the
per-transaction loop, and commit with `batch.Write()`. On any error the
batch is discarded (`defer batch.Reset()`), so the metadata store is
unchanged; metric increments made before the error persist. -/
def Accepted (env : Env) (s : AcceptState) (blk : Block) :
    Except AcceptErr Unit × AcceptState :=
  match acceptedLoop env blk.timestamp blk.results blk.txs 0 s.metrics [] with
  | (Except.ok batch, m) =>
    if env.commitFails then
      (Except.error AcceptErr.commitWrite, { s with metrics := m })
    else
      (Except.ok (), { metaDB := s.metaDB ++ batch, metrics := m })
  | (Except.error e, m) => (Except.error e, { s with metrics := m })

/-- `Controller.Rejected`: returns nil and touches nothing. -/
def Rejected (s : AcceptState) (_blk : Block) : Except AcceptErr Unit × AcceptState :=
  (Except.ok (), s)

/-- `Rejected` called `n` times in a row on the same block. -/
def rejectedMany : Nat → AcceptState → Block → AcceptState
  | 0, s, _ => s
  | n + 1, s, blk => rejectedMany n (Rejected s blk).2 blk

/-- A sequence of `Accepted` calls, each with its own failure environment. -/
def processBlocks : List (Env × Block) → AcceptState → AcceptState
  | [], s => s
  | p :: rest, s => processBlocks rest (Accepted p.1 s p.2).2

/-- Fold of the success-path counter increments over a list of paired
transactions and results (the eager metric mutation of the loop). -/
def applyIncs (m : Metrics) : List (Tx × TxResult) → Metrics
  | [] => m
  | p :: rest => applyIncs (if p.2.success then incMetrics m p.1.action else m) rest

/-- Does this transaction/result pair hit the counter of kind `k`:
the result succeeded and the action is exactly that known kind. -/
def matchesKind (k : KnownKind) (p : Tx × TxResult) : Bool :=
  p.2.success && decide (p.1.action = ActionKind.known k)

/-- Number of successful transactions of action kind `k` in a block. -/
def kindCount (k : KnownKind) (blk : Block) : Nat :=
  (blk.txs.zip blk.results).countP (matchesKind k)

/-- The records `Accepted` commits for a block: one per transaction, keyed
by the transaction id, pairing transactions with results positionally. -/
def blockRecords (blk : Block) : List (Nat × TxRecord) :=
  List.zipWith (mkRec blk.timestamp) blk.txs blk.results

/-- Parsed configuration fields consumed by the strategy selection in
`Controller.Initialize`. The numeric tuning fields are Go numerics whose
zero value marks an absent configuration entry. -/
structure Config where
  testMode : Bool
  preferredBlocksPerSecond : Nat
  gossipInterval : Nat
  gossipMaxSize : Nat
  gossipProposerDiff : Nat
  gossipProposerDepth : Nat
  buildProposerDiff : Nat
  verifyTimeout : Nat
deriving DecidableEq

/-- The tuning of the timed builder (`builder.DefaultTimeConfig()` with
`PreferredBlocksPerSecond` assigned). -/
structure TimeConfig where
  preferredBlocksPerSecond : Nat
deriving DecidableEq

/-- The tuning of the proposer gossiper (`gossiper.DefaultProposerConfig()`
with the six fields assigned in `Controller.Initialize`). -/
structure ProposerConfig where
  gossipInterval : Nat
  gossipMaxSize : Nat
  gossipProposerDiff : Nat
  gossipProposerDepth : Nat
  buildProposerDiff : Nat
  verifyTimeout : Nat
deriving DecidableEq

/-- The selected block-production strategy: `builder.NewManual` or
`builder.NewTime` with its tuning. -/
inductive Builder where
  | manual
  | time (cfg : TimeConfig)
deriving DecidableEq

/-- The selected gossip strategy: `gossiper.NewManual` or
`gossiper.NewProposer` with its tuning. -/
inductive Gossiper where
  | manual
  | proposer (cfg : ProposerConfig)
deriving DecidableEq

/-- Modelled from the spec: the `config` package of this repository is not
in src/ (only its call sites are), so its getters are modelled from spec
section 4.2/6 — each tuning field is optional, and an absent or zero-valued
configured field falls back to the default value verbatim, while a present
non-zero value replaces the default. -/
def resolveField (configured dflt : Nat) : Nat :=
  if configured = 0 then dflt else configured

/-- The builder/gossiper selection of `Controller.Initialize`: in test mode
the manual pair; otherwise the timed builder and proposer gossiper, whose
default tunings (`bDefault`, `gDefault`, owned by the external hypersdk
library and quantified here) are overridden field by field from the
configuration through the spec-modelled `resolveField`. -/
def selectStrategies (cfg : Config) (bDefault : TimeConfig) (gDefault : ProposerConfig) :
    Builder × Gossiper :=
  if cfg.testMode then
    (Builder.manual, Gossiper.manual)
  else
    (Builder.time
      (TimeConfig.mk
        (resolveField cfg.preferredBlocksPerSecond bDefault.preferredBlocksPerSecond)),
     Gossiper.proposer
      (ProposerConfig.mk
        (resolveField cfg.gossipInterval gDefault.gossipInterval)
        (resolveField cfg.gossipMaxSize gDefault.gossipMaxSize)
        (resolveField cfg.gossipProposerDiff gDefault.gossipProposerDiff)
        (resolveField cfg.gossipProposerDepth gDefault.gossipProposerDepth)
        (resolveField cfg.buildProposerDiff gDefault.buildProposerDiff)
        (resolveField cfg.verifyTimeout gDefault.verifyTimeout)))

/-- The three store subdirectories created by `Controller.Initialize`. -/
inductive StoreName where
  | block
  | state
  | metadata
deriving DecidableEq

/-- Failures of the store partitioning steps: `utils.InitSubDirectory` or
`pebble.New`. -/
inductive InitErr where
  | subdirErr (n : StoreName)
  | openErr (n : StoreName)
deriving DecidableEq

/-- Fault-injection environment for the six fallible store-partitioning
steps of `Controller.Initialize`. -/
structure StoresEnv where
  blockDirFails : Bool
  blockOpenFails : Bool
  stateDirFails : Bool
  stateOpenFails : Bool
  metaDirFails : Bool
  metaOpenFails : Bool
deriving DecidableEq

/-- The three opened store handles, tagged by their subdirectory. -/
structure Stores where
  blockDB : StoreName
  stateDB : StoreName
  metaDB : StoreName
deriving DecidableEq

/-- The store-partitioning sequence of `Controller.Initialize`: create the
`block` subdirectory and open its store, then `state`, then `metadata`;
any failure returns the error immediately (every handle in the Go return
is nil), so a `Stores` value exists only when all six steps succeed. -/
def createStores (env : StoresEnv) : Except InitErr Stores :=
  if env.blockDirFails then Except.error (InitErr.subdirErr StoreName.block)
  else if env.blockOpenFails then Except.error (InitErr.openErr StoreName.block)
  else if env.stateDirFails then Except.error (InitErr.subdirErr StoreName.state)
  else if env.stateOpenFails then Except.error (InitErr.openErr StoreName.state)
  else if env.metaDirFails then Except.error (InitErr.subdirErr StoreName.metadata)
  else if env.metaOpenFails then Except.error (InitErr.openErr StoreName.metadata)
  else Except.ok (Stores.mk StoreName.block StoreName.state StoreName.metadata)

/-- Reading a counter after one type-switch dispatch: the counter of kind
`k` grows by one exactly when the action is the known kind `k`. -/
lemma getCounter_incMetrics (m : Metrics) (a : ActionKind) (k : KnownKind) :
    getCounter (incMetrics m a) k =
      getCounter m k + (if a = ActionKind.known k then 1 else 0) := by
  cases a with
  | known j => cases j <;> cases k <;> simp [incMetrics, getCounter]
  | unknown t => simp [incMetrics, getCounter]

/-- Reading a counter after folding the eager increments over a list of
paired transactions and results. -/
lemma getCounter_applyIncs (l : List (Tx × TxResult)) (m : Metrics) (k : KnownKind) :
    getCounter (applyIncs m l) k = getCounter m k + l.countP (matchesKind k) := by
  induction l generalizing m with
  | nil => simp [applyIncs]
  | cons p rest ih =>
    rw [applyIncs, ih, List.countP_cons]
    by_cases hs : p.2.success = true
    · rw [if_pos hs, getCounter_incMetrics]
      by_cases ha : p.1.action = ActionKind.known k
      · simp [matchesKind, hs, ha]; omega
      · simp [matchesKind, hs, ha]
    · simp at hs
      simp [matchesKind, hs]

/-- A fully successful run of the acceptance loop: when every `results[i]`
access is in range and no per-transaction write fails, the loop returns the
batch extended with one record per transaction (paired positionally) and
the eagerly incremented metrics. -/
lemma acceptedLoop_ok (env : Env) (ts : Int) (results : List TxResult) :
    ∀ (txs : List Tx) (i : Nat) (m : Metrics) (batch : List (Nat × TxRecord)),
      i + txs.length ≤ results.length →
      (∀ j, j < txs.length → env.writeFails (i + j) = false) →
      acceptedLoop env ts results txs i m batch =
        (Except.ok (batch ++ List.zipWith (mkRec ts) txs (results.drop i)),
         applyIncs m (txs.zip (results.drop i))) := by
  intro txs
  induction txs with
  | nil =>
    intro i m batch _ _
    simp [acceptedLoop, applyIncs]
  | cons tx rest ih =>
    intro i m batch h1 h2
    have hi : i < results.length := by
      simp only [List.length_cons] at h1; omega
    have hdrop : results.drop i = results[i] :: results.drop (i + 1) :=
      (List.getElem_cons_drop results i hi).symm
    have hw : env.writeFails i = false := by
      have h0 := h2 0 (by simp)
      simpa using h0
    have h1' : (i + 1) + rest.length ≤ results.length := by
      simp only [List.length_cons] at h1; omega
    have h2' : ∀ j, j < rest.length → env.writeFails ((i + 1) + j) = false := by
      intro j hj
      have := h2 (j + 1) (by simp only [List.length_cons]; omega)
      have harith : i + (j + 1) = (i + 1) + j := by omega
      rwa [harith] at this
    have step := ih (i + 1)
      (if (results[i]).success then incMetrics m tx.action else m)
      (batch ++ [mkRec ts tx (results[i])]) h1' h2'
    rw [hdrop, List.zipWith_cons_cons, List.zip_cons_cons]
    simp only [acceptedLoop, List.getElem?_eq_getElem hi, hw, Bool.false_eq_true,
      if_false, step, List.append_assoc, List.singleton_append]
    rw [applyIncs]

/-- Inversion of a successful loop run: the returned batch is the input
batch extended with the positionally zipped records, and the transaction
list is no longer than the remaining results. -/
lemma acceptedLoop_ok_inv (env : Env) (ts : Int) (results : List TxResult) :
    ∀ (txs : List Tx) (i : Nat) (m : Metrics) (batch b : List (Nat × TxRecord)) (mOut : Metrics),
      acceptedLoop env ts results txs i m batch = (Except.ok b, mOut) →
      b = batch ++ List.zipWith (mkRec ts) txs (results.drop i) ∧
        txs.length ≤ (results.drop i).length := by
  intro txs
  induction txs with
  | nil =>
    intro i m batch b mOut h
    simp [acceptedLoop] at h
    simp [h.1.symm]
  | cons tx rest ih =>
    intro i m batch b mOut h
    rw [acceptedLoop] at h
    cases hget : results[i]? with
    | none => rw [hget] at h; simp at h
    | some r =>
      rw [hget] at h
      dsimp only at h
      obtain ⟨hi, hr⟩ := List.getElem?_eq_some.mp hget
      by_cases hwf : env.writeFails i = true
      · rw [if_pos hwf] at h; simp at h
      · simp only [Bool.not_eq_true] at hwf
        rw [hwf] at h
        simp only [Bool.false_eq_true, if_false] at h
        obtain ⟨hb, hlen⟩ := ih (i + 1) _ _ b mOut h
        have hdrop : results.drop i = r :: results.drop (i + 1) := by
          rw [← hr]
          exact (List.getElem_cons_drop results i hi).symm
        constructor
        · rw [hb, hdrop, List.zipWith_cons_cons]
          simp [List.append_assoc]
        · rw [hdrop]
          simp only [List.length_cons]
          omega

/-- When every `results[i]` access stays in range, the loop never reaches
the out-of-range branch. -/
lemma acceptedLoop_no_panic (env : Env) (ts : Int) (results : List TxResult) :
    ∀ (txs : List Tx) (i : Nat) (m : Metrics) (batch : List (Nat × TxRecord)),
      i + txs.length ≤ results.length →
      (acceptedLoop env ts results txs i m batch).1 ≠
        Except.error AcceptErr.indexPanic := by
  intro txs
  induction txs with
  | nil =>
    intro i m batch _
    simp [acceptedLoop]
  | cons tx rest ih =>
    intro i m batch h1
    have hi : i < results.length := by
      simp only [List.length_cons] at h1; omega
    have h1' : (i + 1) + rest.length ≤ results.length := by
      simp only [List.length_cons] at h1; omega
    rw [acceptedLoop]
    rw [List.getElem?_eq_getElem hi]
    dsimp only
    by_cases hwf : env.writeFails i = true
    · rw [if_pos hwf]; simp
    · simp only [Bool.not_eq_true] at hwf
      rw [hwf]
      simp only [Bool.false_eq_true, if_false]
      exact ih (i + 1) _ _ h1'

/-- A loop run that fails at the write of relative position `k`, all
earlier writes succeeding: the loop surfaces the store-write error and the
metrics carry exactly the increments of the first `k` transactions. -/
lemma acceptedLoop_err_at (env : Env) (ts : Int) (results : List TxResult) :
    ∀ (txs : List Tx) (i k : Nat) (m : Metrics) (batch : List (Nat × TxRecord)),
      k < txs.length →
      env.writeFails (i + k) = true →
      (∀ j, j < k → env.writeFails (i + j) = false) →
      i + txs.length ≤ results.length →
      acceptedLoop env ts results txs i m batch =
        (Except.error AcceptErr.storeWrite,
         applyIncs m ((txs.take k).zip ((results.drop i).take k))) := by
  intro txs
  induction txs with
  | nil =>
    intro i k m batch hk
    simp at hk
  | cons tx rest ih =>
    intro i k m batch hk hf hprev hres
    have hi : i < results.length := by
      simp only [List.length_cons] at hres; omega
    have hdrop : results.drop i = results[i] :: results.drop (i + 1) :=
      (List.getElem_cons_drop results i hi).symm
    cases k with
    | zero =>
      rw [acceptedLoop, List.getElem?_eq_getElem hi]
      dsimp only
      have hf0 : env.writeFails i = true := by simpa using hf
      rw [if_pos hf0]
      simp [applyIncs]
    | succ k0 =>
      have hw : env.writeFails i = false := by
        have := hprev 0 (by omega)
        simpa using this
      have hf' : env.writeFails ((i + 1) + k0) = true := by
        have harith : i + (k0 + 1) = (i + 1) + k0 := by omega
        rwa [harith] at hf
      have hprev' : ∀ j, j < k0 → env.writeFails ((i + 1) + j) = false := by
        intro j hj
        have := hprev (j + 1) (by omega)
        have harith : i + (j + 1) = (i + 1) + j := by omega
        rwa [harith] at this
      have hres' : (i + 1) + rest.length ≤ results.length := by
        simp only [List.length_cons] at hres; omega
      have hk' : k0 < rest.length := by
        simp only [List.length_cons] at hk; omega
      rw [acceptedLoop, List.getElem?_eq_getElem hi]
      dsimp only
      rw [hw]
      simp only [Bool.false_eq_true, if_false]
      rw [ih (i + 1) k0 _ _ hk' hf' hprev' hres']
      rw [hdrop, List.take_succ_cons, List.take_succ_cons, List.zip_cons_cons]
      rw [applyIncs]

/-- The metrics returned by `Accepted` are exactly the loop's metrics, on
every path (success, write failure and commit failure alike). -/
lemma Accepted_metrics_eq (env : Env) (s : AcceptState) (blk : Block) :
    (Accepted env s blk).2.metrics =
      (acceptedLoop env blk.timestamp blk.results blk.txs 0 s.metrics []).2 := by
  unfold Accepted
  rcases hl : acceptedLoop env blk.timestamp blk.results blk.txs 0 s.metrics [] with ⟨r, m⟩
  cases r with
  | ok batch => by_cases hc : env.commitFails = true <;> simp [hc]
  | error e => simp

/-- On every error path of `Accepted`, the metadata store is unchanged:
the batch is discarded without being written. -/
lemma Accepted_error_metaDB (env : Env) (s : AcceptState) (blk : Block) (e : AcceptErr)
    (h : (Accepted env s blk).1 = Except.error e) :
    (Accepted env s blk).2.metaDB = s.metaDB := by
  unfold Accepted at h ⊢
  rcases hl : acceptedLoop env blk.timestamp blk.results blk.txs 0 s.metrics [] with ⟨r, m⟩
  rw [hl] at h
  cases r with
  | ok batch =>
    by_cases hc : env.commitFails = true
    · simp [hc]
    · simp [hc] at h
  | error e0 => simp

/-- The keys of the positionally zipped records are the transaction ids,
in block order, when the results cover the transactions. -/
lemma zipWith_mkRec_fst (ts : Int) :
    ∀ (txs : List Tx) (rs : List TxResult), txs.length ≤ rs.length →
      (List.zipWith (mkRec ts) txs rs).map Prod.fst = txs.map Tx.id := by
  intro txs
  induction txs with
  | nil => intro rs _; simp
  | cons tx rest ih =>
    intro rs hlen
    cases rs with
    | nil => simp at hlen
    | cons r rrest =>
      simp only [List.zipWith_cons_cons, List.map_cons]
      rw [ih rrest (by simpa using hlen)]
      rfl

/-- A fully successful `Accepted` call: the metadata store gains exactly
the block's records and the metrics gain the block's eager increments. -/
lemma Accepted_ok_run (env : Env) (s : AcceptState) (blk : Block)
    (hres : blk.txs.length ≤ blk.results.length)
    (hw : ∀ i, i < blk.txs.length → env.writeFails i = false)
    (hc : env.commitFails = false) :
    Accepted env s blk =
      (Except.ok (), AcceptState.mk (s.metaDB ++ blockRecords blk)
        (applyIncs s.metrics (blk.txs.zip blk.results))) := by
  have hloop := acceptedLoop_ok env blk.timestamp blk.results blk.txs 0 s.metrics []
    (by omega) (by intro j hj; simpa using hw j hj)
  unfold Accepted
  rw [hloop]
  simp [hc, blockRecords]

/-- All eight counters at zero, as after `newMetrics`. -/
def zeroMetrics : Metrics := Metrics.mk 0 0 0 0 0 0 0 0

/-- Environment with no injected storage failures. -/
def envOk : Env := Env.mk (fun _ => false) false

/-- Environment where only the final batch commit fails. -/
def envCommitFail : Env := Env.mk (fun _ => false) true

/-- Environment where the record write of the second transaction fails. -/
def envWriteFail1 : Env := Env.mk (fun i => decide (i = 1)) false

/-- Empty metadata store and zero counters. -/
def state0 : AcceptState := AcceptState.mk [] zeroMetrics

/-- A transfer transaction with id 5. -/
def txTransfer : Tx := Tx.mk 5 (ActionKind.known KnownKind.transfer)

/-- A mint-asset transaction with id 9. -/
def txMint : Tx := Tx.mk 9 (ActionKind.known KnownKind.mintAsset)

/-- One-transaction block: a successful transfer of cost 5 at timestamp 7. -/
def blkOne : Block := Block.mk [txTransfer] [TxResult.mk true 5] 7

/-- The scenario block of the spec: a successful transfer, a failed mint. -/
def blkScenario : Block :=
  Block.mk [txTransfer, txMint] [TxResult.mk true 5, TxResult.mk false 0] 7

/-- A block with two successful transactions (transfer then mint). -/
def blkTwo : Block :=
  Block.mk [txTransfer, txMint] [TxResult.mk true 5, TxResult.mk true 3] 7

/-- A block with no transactions. -/
def blkEmpty : Block := Block.mk [] [] 7

/-- A production-mode configuration with some fields zero (absent). -/
def cfgProd : Config := Config.mk false 0 3 0 4 0 5 0

/-- A test-mode configuration with arbitrary tuning values. -/
def cfgTest : Config := Config.mk true 1 2 3 4 5 6 7

/-- Sample builder default tuning. -/
def bDex : TimeConfig := TimeConfig.mk 10

/-- Sample gossiper default tuning. -/
def gDex : ProposerConfig := ProposerConfig.mk 11 12 13 14 15 16

/-- A store-partitioning environment where opening the state store fails. -/
def storesEnvBad : StoresEnv := StoresEnv.mk false false false true false false

/-- Counter bookkeeping over a successfully indexed sequence of blocks. -/
lemma processBlocks_counters :
    ∀ (l : List (Env × Block)) (s : AcceptState),
      (∀ p ∈ l, p.1.commitFails = false ∧ p.2.txs.length ≤ p.2.results.length ∧
        ∀ i, i < p.2.txs.length → p.1.writeFails i = false) →
      ∀ k, getCounter (processBlocks l s).metrics k =
        getCounter s.metrics k + (l.map (fun p => kindCount k p.2)).sum := by
  intro l
  induction l with
  | nil => intro s _ k; simp [processBlocks]
  | cons p rest ih =>
    intro s h k
    obtain ⟨hc, hres, hw⟩ := h p (List.mem_cons_self p rest)
    have hrun := Accepted_ok_run p.1 s p.2 hres hw hc
    rw [processBlocks, hrun]
    dsimp only
    rw [ih _ (fun q hq => h q (List.mem_cons_of_mem p hq)) k]
    dsimp only
    rw [getCounter_applyIncs]
    simp only [List.map_cons, List.sum_cons, kindCount]
    omega

/-- C1: if `Accepted` returns success for a block with N transactions,
exactly N indexed records — one per transaction, keyed by that
transaction's identifier, in block order — are appended to the metadata
store; if it returns an error, the metadata store is unchanged (the batch
is never partially committed). -/
theorem accepted_batch_atomicity (env : Env) (s : AcceptState) (blk : Block) :
    (∀ u, (Accepted env s blk).1 = Except.ok u →
      ∃ recs, (Accepted env s blk).2.metaDB = s.metaDB ++ recs ∧
        recs.length = blk.txs.length ∧
        recs.map Prod.fst = blk.txs.map Tx.id) ∧
    (∀ e, (Accepted env s blk).1 = Except.error e →
      (Accepted env s blk).2.metaDB = s.metaDB) := by
  constructor
  · intro u hok
    unfold Accepted at hok ⊢
    rcases hl : acceptedLoop env blk.timestamp blk.results blk.txs 0 s.metrics [] with ⟨r, m⟩
    rw [hl] at hok
    cases r with
    | error e0 => dsimp only at hok; exact absurd hok (by simp)
    | ok batch =>
      dsimp only at hok ⊢
      by_cases hc : env.commitFails = true
      · rw [if_pos hc] at hok; simp at hok
      · simp only [Bool.not_eq_true] at hc
        simp only [hc, Bool.false_eq_true, if_false] at hok ⊢
        obtain ⟨hb, hlen⟩ :=
          acceptedLoop_ok_inv env blk.timestamp blk.results blk.txs 0 s.metrics [] batch m hl
        rw [List.drop_zero] at hb hlen
        rw [List.nil_append] at hb
        refine ⟨batch, rfl, ?_, ?_⟩
        · rw [hb, List.length_zipWith]
          omega
        · rw [hb]
          exact zipWith_mkRec_fst blk.timestamp blk.txs blk.results hlen
  · intro e herr
    exact Accepted_error_metaDB env s blk e herr

/-- C1 witness: the atomicity theorem applied to a concrete successful
one-transaction block. -/
theorem accepted_batch_atomicity_witness :
    ∃ recs, (Accepted envOk state0 blkOne).2.metaDB = state0.metaDB ++ recs ∧
      recs.length = blkOne.txs.length ∧
      recs.map Prod.fst = blkOne.txs.map Tx.id :=
  (accepted_batch_atomicity envOk state0 blkOne).1 () (by rfl)

/-- C2: across any sequence of blocks each fully indexed by `Accepted`
(results cover the transactions, no write or commit failure), the counter
of each known action kind grows by exactly the number of successful
transactions of that kind across the sequence; unsuccessful transactions
are not counted, and an action kind outside the known set never changes
any counter. -/
theorem counter_conservation (l : List (Env × Block)) (s : AcceptState)
    (h : ∀ p ∈ l, p.1.commitFails = false ∧ p.2.txs.length ≤ p.2.results.length ∧
      ∀ i, i < p.2.txs.length → p.1.writeFails i = false) :
    (∀ k, getCounter (processBlocks l s).metrics k =
      getCounter s.metrics k + (l.map (fun p => kindCount k p.2)).sum) ∧
    (∀ m t, incMetrics m (ActionKind.unknown t) = m) :=
  ⟨processBlocks_counters l s h, fun _ _ => rfl⟩

/-- C2 witness: the spec's scenario block (successful transfer, failed
mint): the transfer counter gains one, via the conservation theorem. -/
theorem counter_conservation_witness :
    getCounter (processBlocks [(envOk, blkScenario)] state0).metrics KnownKind.transfer =
      getCounter state0.metrics KnownKind.transfer +
        ([(envOk, blkScenario)].map (fun p => kindCount KnownKind.transfer p.2)).sum := by
  have H := counter_conservation [(envOk, blkScenario)] state0 (by
    intro p hp
    rw [List.mem_singleton] at hp
    subst hp
    exact ⟨rfl, by decide, fun i _ => rfl⟩)
  exact H.1 KnownKind.transfer

/-- C3: with TestMode false, every configured tuning field (gossip
interval, max payload size, proposer-diff, proposer-depth,
build-proposer-diff, verify-timeout, preferred-blocks-per-second) either
replaces the corresponding default (when non-zero) or the default stands
verbatim (when absent/zero-valued); selection always succeeds with the
timed/proposer pair. -/
theorem strategy_override_total (cfg : Config) (bD : TimeConfig) (gD : ProposerConfig)
    (h : cfg.testMode = false) :
    ∃ tc pc, selectStrategies cfg bD gD = (Builder.time tc, Gossiper.proposer pc) ∧
      ((cfg.preferredBlocksPerSecond = 0 →
          tc.preferredBlocksPerSecond = bD.preferredBlocksPerSecond) ∧
       (cfg.preferredBlocksPerSecond ≠ 0 →
          tc.preferredBlocksPerSecond = cfg.preferredBlocksPerSecond)) ∧
      ((cfg.gossipInterval = 0 → pc.gossipInterval = gD.gossipInterval) ∧
       (cfg.gossipInterval ≠ 0 → pc.gossipInterval = cfg.gossipInterval)) ∧
      ((cfg.gossipMaxSize = 0 → pc.gossipMaxSize = gD.gossipMaxSize) ∧
       (cfg.gossipMaxSize ≠ 0 → pc.gossipMaxSize = cfg.gossipMaxSize)) ∧
      ((cfg.gossipProposerDiff = 0 → pc.gossipProposerDiff = gD.gossipProposerDiff) ∧
       (cfg.gossipProposerDiff ≠ 0 → pc.gossipProposerDiff = cfg.gossipProposerDiff)) ∧
      ((cfg.gossipProposerDepth = 0 → pc.gossipProposerDepth = gD.gossipProposerDepth) ∧
       (cfg.gossipProposerDepth ≠ 0 → pc.gossipProposerDepth = cfg.gossipProposerDepth)) ∧
      ((cfg.buildProposerDiff = 0 → pc.buildProposerDiff = gD.buildProposerDiff) ∧
       (cfg.buildProposerDiff ≠ 0 → pc.buildProposerDiff = cfg.buildProposerDiff)) ∧
      ((cfg.verifyTimeout = 0 → pc.verifyTimeout = gD.verifyTimeout) ∧
       (cfg.verifyTimeout ≠ 0 → pc.verifyTimeout = cfg.verifyTimeout)) := by
  refine ⟨TimeConfig.mk (resolveField cfg.preferredBlocksPerSecond bD.preferredBlocksPerSecond),
    ProposerConfig.mk (resolveField cfg.gossipInterval gD.gossipInterval)
      (resolveField cfg.gossipMaxSize gD.gossipMaxSize)
      (resolveField cfg.gossipProposerDiff gD.gossipProposerDiff)
      (resolveField cfg.gossipProposerDepth gD.gossipProposerDepth)
      (resolveField cfg.buildProposerDiff gD.buildProposerDiff)
      (resolveField cfg.verifyTimeout gD.verifyTimeout), ?_, ?_, ?_, ?_, ?_, ?_, ?_, ?_⟩
  · simp [selectStrategies, h]
  all_goals exact ⟨fun h0 => by simp [resolveField, h0], fun h0 => by simp [resolveField, h0]⟩

/-- C3 witness: the override theorem applied to a concrete production
configuration with a mix of absent (zero) and present fields. -/
theorem strategy_override_total_witness :
    ∃ tc pc, selectStrategies cfgProd bDex gDex = (Builder.time tc, Gossiper.proposer pc) ∧
      ((cfgProd.preferredBlocksPerSecond = 0 →
          tc.preferredBlocksPerSecond = bDex.preferredBlocksPerSecond) ∧
       (cfgProd.preferredBlocksPerSecond ≠ 0 →
          tc.preferredBlocksPerSecond = cfgProd.preferredBlocksPerSecond)) ∧
      ((cfgProd.gossipInterval = 0 → pc.gossipInterval = gDex.gossipInterval) ∧
       (cfgProd.gossipInterval ≠ 0 → pc.gossipInterval = cfgProd.gossipInterval)) ∧
      ((cfgProd.gossipMaxSize = 0 → pc.gossipMaxSize = gDex.gossipMaxSize) ∧
       (cfgProd.gossipMaxSize ≠ 0 → pc.gossipMaxSize = cfgProd.gossipMaxSize)) ∧
      ((cfgProd.gossipProposerDiff = 0 → pc.gossipProposerDiff = gDex.gossipProposerDiff) ∧
       (cfgProd.gossipProposerDiff ≠ 0 → pc.gossipProposerDiff = cfgProd.gossipProposerDiff)) ∧
      ((cfgProd.gossipProposerDepth = 0 → pc.gossipProposerDepth = gDex.gossipProposerDepth) ∧
       (cfgProd.gossipProposerDepth ≠ 0 → pc.gossipProposerDepth = cfgProd.gossipProposerDepth)) ∧
      ((cfgProd.buildProposerDiff = 0 → pc.buildProposerDiff = gDex.buildProposerDiff) ∧
       (cfgProd.buildProposerDiff ≠ 0 → pc.buildProposerDiff = cfgProd.buildProposerDiff)) ∧
      ((cfgProd.verifyTimeout = 0 → pc.verifyTimeout = gDex.verifyTimeout) ∧
       (cfgProd.verifyTimeout ≠ 0 → pc.verifyTimeout = cfgProd.verifyTimeout)) :=
  strategy_override_total cfgProd bDex gDex rfl

/-- C4: TestMode true selects the manual builder and manual gossiper
regardless of every other configuration field; TestMode false selects the
timed builder and the proposer gossiper. -/
theorem strategy_mode_selection (cfg : Config) (bD : TimeConfig) (gD : ProposerConfig) :
    (cfg.testMode = true →
      selectStrategies cfg bD gD = (Builder.manual, Gossiper.manual)) ∧
    (cfg.testMode = false →
      ∃ tc pc, selectStrategies cfg bD gD = (Builder.time tc, Gossiper.proposer pc)) := by
  constructor
  · intro h
    simp [selectStrategies, h]
  · intro h
    refine ⟨TimeConfig.mk (resolveField cfg.preferredBlocksPerSecond bD.preferredBlocksPerSecond),
      ProposerConfig.mk (resolveField cfg.gossipInterval gD.gossipInterval)
        (resolveField cfg.gossipMaxSize gD.gossipMaxSize)
        (resolveField cfg.gossipProposerDiff gD.gossipProposerDiff)
        (resolveField cfg.gossipProposerDepth gD.gossipProposerDepth)
        (resolveField cfg.buildProposerDiff gD.buildProposerDiff)
        (resolveField cfg.verifyTimeout gD.verifyTimeout), ?_⟩
    simp [selectStrategies, h]

/-- C4 witness: the mode-selection theorem applied to a concrete test-mode
configuration and a concrete production configuration. -/
theorem strategy_mode_selection_witness :
    selectStrategies cfgTest bDex gDex = (Builder.manual, Gossiper.manual) ∧
    ∃ tc pc, selectStrategies cfgProd bDex gDex = (Builder.time tc, Gossiper.proposer pc) :=
  ⟨(strategy_mode_selection cfgTest bDex gDex).1 rfl,
   (strategy_mode_selection cfgProd bDex gDex).2 rfl⟩

/-- C5: when every per-transaction write succeeds but the final batch
commit fails, `Accepted` surfaces the commit error, the metadata store is
unchanged, and every counter keeps the increments of the block's
successful transactions — counters overcount relative to durably indexed
records. -/
theorem commit_failure_keeps_counters (env : Env) (s : AcceptState) (blk : Block)
    (hres : blk.txs.length ≤ blk.results.length)
    (hw : ∀ i, i < blk.txs.length → env.writeFails i = false)
    (hc : env.commitFails = true) :
    (Accepted env s blk).1 = Except.error AcceptErr.commitWrite ∧
    (Accepted env s blk).2.metaDB = s.metaDB ∧
    ∀ k, getCounter (Accepted env s blk).2.metrics k =
      getCounter s.metrics k + kindCount k blk := by
  have hloop := acceptedLoop_ok env blk.timestamp blk.results blk.txs 0 s.metrics []
    (by omega) (by intro j hj; simpa using hw j hj)
  rw [List.drop_zero] at hloop
  unfold Accepted
  rw [hloop]
  dsimp only
  rw [if_pos hc]
  refine ⟨rfl, rfl, ?_⟩
  intro k
  dsimp only
  rw [getCounter_applyIncs]
  rfl

/-- C5 witness: commit failure on the concrete one-transfer block — error
surfaced, store unchanged, transfer counter incremented anyway. -/
theorem commit_failure_keeps_counters_witness :
    (Accepted envCommitFail state0 blkOne).1 = Except.error AcceptErr.commitWrite ∧
    (Accepted envCommitFail state0 blkOne).2.metaDB = state0.metaDB ∧
    getCounter (Accepted envCommitFail state0 blkOne).2.metrics KnownKind.transfer =
      getCounter state0.metrics KnownKind.transfer + kindCount KnownKind.transfer blkOne := by
  have H := commit_failure_keeps_counters envCommitFail state0 blkOne
    (by decide) (fun i _ => rfl) rfl
  exact ⟨H.1, H.2.1, H.2.2 KnownKind.transfer⟩

/-- C6: if any of the six store-partitioning steps (subdirectory creation
or store open, for block, state and metadata) fails, `createStores`
returns an error and no store set (so no partial set of handles reaches
the host); conversely a success implies every step succeeded. -/
theorem init_store_failure_aborts (env : StoresEnv) :
    ((env.blockDirFails = true ∨ env.blockOpenFails = true ∨ env.stateDirFails = true ∨
        env.stateOpenFails = true ∨ env.metaDirFails = true ∨ env.metaOpenFails = true) →
      (createStores env).isOk = false) ∧
    ((createStores env).isOk = true →
      env.blockDirFails = false ∧ env.blockOpenFails = false ∧ env.stateDirFails = false ∧
      env.stateOpenFails = false ∧ env.metaDirFails = false ∧ env.metaOpenFails = false) := by
  rcases env with ⟨a, b, c, d, f, g⟩
  cases a <;> cases b <;> cases c <;> cases d <;> cases f <;> cases g <;>
    simp [createStores, Except.isOk, Except.toBool]

/-- C6 witness: a failed state-store open aborts the whole partitioning. -/
theorem init_store_failure_aborts_witness :
    (createStores storesEnvBad).isOk = false :=
  (init_store_failure_aborts storesEnvBad).1 (Or.inr (Or.inr (Or.inr (Or.inl rfl))))

/-- C7: `Rejected` returns success and mutates nothing, however many times
it is called on whatever block. -/
theorem rejected_noop (s : AcceptState) (blk : Block) :
    Rejected s blk = (Except.ok (), s) ∧ ∀ n, rejectedMany n s blk = s := by
  refine ⟨rfl, ?_⟩
  intro n
  induction n with
  | zero => rfl
  | succ n ih => rw [rejectedMany]; exact ih

/-- C8: on a block with zero transactions (and a commit that does not
fail), `Accepted` returns success and leaves the state — metadata store
and all counters — exactly as it was. -/
theorem accepted_empty_block (env : Env) (s : AcceptState) (blk : Block)
    (hE : blk.txs = []) (hc : env.commitFails = false) :
    Accepted env s blk = (Except.ok (), s) := by
  unfold Accepted
  rw [hE, acceptedLoop]
  dsimp only
  simp [hc]

/-- C8 witness: the empty-block theorem at the concrete empty block. -/
theorem accepted_empty_block_witness :
    Accepted envOk state0 blkEmpty = (Except.ok (), state0) :=
  accepted_empty_block envOk state0 blkEmpty rfl rfl

/-- C9: if the per-transaction record write fails at position i (earlier
writes succeeding, results covering the transactions), `Accepted` surfaces
the store-write error, commits nothing, yet every counter keeps exactly
the increments of the successful transactions before position i. -/
theorem midblock_write_failure_keeps_counters (env : Env) (s : AcceptState) (blk : Block)
    (i : Nat) (hi : i < blk.txs.length) (hf : env.writeFails i = true)
    (hprev : ∀ j, j < i → env.writeFails j = false)
    (hres : blk.txs.length ≤ blk.results.length) :
    (Accepted env s blk).1 = Except.error AcceptErr.storeWrite ∧
    (Accepted env s blk).2.metaDB = s.metaDB ∧
    ∀ k, getCounter (Accepted env s blk).2.metrics k =
      getCounter s.metrics k +
        ((blk.txs.take i).zip (blk.results.take i)).countP (matchesKind k) := by
  have hloop := acceptedLoop_err_at env blk.timestamp blk.results blk.txs 0 i s.metrics []
    hi (by simpa using hf) (by intro j hj; simpa using hprev j hj) (by omega)
  rw [List.drop_zero] at hloop
  unfold Accepted
  rw [hloop]
  dsimp only
  refine ⟨rfl, rfl, ?_⟩
  intro k
  rw [getCounter_applyIncs]

/-- C9 witness: write failure at the second of two successful
transactions — the transfer counter of the first stays incremented while
nothing is committed. -/
theorem midblock_write_failure_keeps_counters_witness :
    (Accepted envWriteFail1 state0 blkTwo).1 = Except.error AcceptErr.storeWrite ∧
    (Accepted envWriteFail1 state0 blkTwo).2.metaDB = state0.metaDB ∧
    getCounter (Accepted envWriteFail1 state0 blkTwo).2.metrics KnownKind.transfer =
      getCounter state0.metrics KnownKind.transfer +
        ((blkTwo.txs.take 1).zip (blkTwo.results.take 1)).countP
          (matchesKind KnownKind.transfer) := by
  have H := midblock_write_failure_keeps_counters envWriteFail1 state0 blkTwo 1
    (by decide) (by decide) (by decide) (by decide)
  exact ⟨H.1, H.2.1, H.2.2 KnownKind.transfer⟩

/-- C10: under the precondition that the block's result list is at least
as long as its transaction list, the positional `results[i]` access of
`Accepted` never goes out of range: the panic branch is unreachable. -/
theorem results_index_safe (env : Env) (s : AcceptState) (blk : Block)
    (h : blk.txs.length ≤ blk.results.length) :
    (Accepted env s blk).1 ≠ Except.error AcceptErr.indexPanic := by
  have hnp := acceptedLoop_no_panic env blk.timestamp blk.results blk.txs 0 s.metrics []
    (by omega)
  unfold Accepted
  rcases hl : acceptedLoop env blk.timestamp blk.results blk.txs 0 s.metrics [] with ⟨r, m⟩
  rw [hl] at hnp
  cases r with
  | ok batch =>
    dsimp only
    by_cases hc : env.commitFails = true <;> simp [hc]
  | error e0 =>
    dsimp only
    simpa using hnp

/-- C10 witness: the index-safety theorem at the concrete one-transfer
block whose results cover its transactions. -/
theorem results_index_safe_witness :
    (Accepted envOk state0 blkOne).1 ≠ Except.error AcceptErr.indexPanic :=
  results_index_safe envOk state0 blkOne (by decide)

end NodekitSeq
